import Mathlib

/-!
The session lifecycle of `sync-ssh.go` (sync-space).

A shallow embedding of `main` in `src/sync-ssh.go`.

* Go strings are lists of characters (`Str`).  The only separators the program
  searches for are the one-byte literals `":"` and `"@"`, for which counting and
  splitting by byte and by character agree.
* The three tasks of the program (main, the goroutine reading the watcher, the
  goroutine running incremental mirrors) are program counters in one `State`;
  `step` executes one statement of one task, the outcome of every call into the
  outside world (child processes, user lookup, pipes) being supplied by the label.
* A task whose statement cannot proceed (a receive on an empty channel, a send
  with no receiver) has no step; a state in which no task has a step is a
  blocked program.  What the Go runtime does with a blocked program is not part
  of the model.
-/

namespace SyncSpace

/-- A Go string. -/
abbrev Str := List Char

deriving instance DecidableEq for Except

/-! ## Library functions used by `main` -/

namespace strings

/-- Go `strings.Count(s, sep)` for a one-character separator. -/
def Count (s : Str) (sep : Char) : Nat :=
  match s with
  | [] => 0
  | c :: cs => if c = sep then Count cs sep + 1 else Count cs sep

/-- Go `strings.Split(s, sep)` for a one-character separator: the pieces of `s`
between consecutive separators, in order (one more piece than separators). -/
def Split (s : Str) (sep : Char) : List Str :=
  match s with
  | [] => [[]]
  | c :: cs =>
    if c = sep then [] :: Split cs sep
    else
      match Split cs sep with
      | [] => [[c]]
      | p :: ps => (c :: p) :: ps

/-- Go `unicode.IsSpace`: the code points with the White_Space property. -/
def isSpace (c : Char) : Bool :=
  let n := c.toNat
  (0x09 ≤ n && n ≤ 0x0d) || n == 0x20 || n == 0x85 || n == 0xa0 || n == 0x1680 ||
  (0x2000 ≤ n && n ≤ 0x200a) || n == 0x2028 || n == 0x2029 || n == 0x202f ||
  n == 0x205f || n == 0x3000

/-- Go `strings.TrimSpace`: drop leading and trailing white space. -/
def TrimSpace (s : Str) : Str :=
  ((s.dropWhile isSpace).reverse.dropWhile isSpace).reverse

end strings

/-! ## Target parsing (`main`, lines 37-68) -/

/-- The values a Go `panic` of `main` can carry, one per call site. -/
inductive Abort
  /-- line 26: the log file cannot be opened -/
  | logFile
  /-- line 31: wrong number of positional arguments -/
  | usage
  /-- line 38: the number of colons is not one -/
  | remoteFormat
  /-- lines 49 and 74: `user.Current()` failed -/
  | userLookup
  /-- line 60: more than one `@` before the colon -/
  | badUserHost
  /-- line 67: empty user-host string -/
  | badRemoteArg
  /-- lines 41, 62, 57, 58: slice index out of range (runtime panic) -/
  | indexOutOfRange
  /-- line 96: the tunnel command could not be started -/
  | tunnelStart
  /-- line 99: waiting for the tunnel command failed, or it exited non-zero -/
  | tunnelWait
  /-- line 136: the instance description command failed -/
  | describe
  /-- line 162: the initial rsync could not be started -/
  | rsyncStart
  /-- line 165: waiting for the initial rsync returned an error -/
  | rsyncWait
  /-- line 183: no stdout pipe for fswatch -/
  | watchPipe
  /-- line 189: fswatch could not be started -/
  | watchStart
  /-- line 250: gcloud is not on the search path -/
  | lookPath
  /-- line 262: the shell could not be started -/
  | shellStart
  /-- line 265: waiting for the shell returned an error -/
  | shellWait
  /-- line 116: `Wait` called on the nil process left by a failed start (runtime panic) -/
  | nilProcess
  deriving DecidableEq, Repr

/-- The panics that report a malformed target string. -/
def Abort.isParseError : Abort → Bool
  | .remoteFormat | .badUserHost | .badRemoteArg => true
  | _ => false

/-- The variables `main` derives from the target argument. -/
structure Target where
  remoteUserHost : Str
  remoteUser : Str
  remoteHost : Str
  remotePath : Str
  deriving DecidableEq, Repr

/-- Lines 37-68 of `main`.  `currentUser` is the result of `user.Current()`
(`none` when it returns an error); it is consulted only when the part before
the colon has no `@`. -/
def parseTarget (currentUser : Option Str) (remoteArg : Str) : Except Abort Target :=
  if strings.Count remoteArg ':' ≠ 1 then .error .remoteFormat
  else
    let remoteParts := strings.Split remoteArg ':'
    match remoteParts[0]?, remoteParts[1]? with
    | some remoteUserHost, some right =>
      let parsed : Except Abort (Str × Str × Str) :=
        match strings.Count remoteUserHost '@' with
        | 0 =>
          match currentUser with
          | none => .error .userLookup
          | some username => .ok (username ++ '@' :: remoteUserHost, username, remoteUserHost)
        | 1 =>
          let ss := strings.Split remoteUserHost '@'
          match ss[0]?, ss[1]? with
          | some u, some h => .ok (remoteUserHost, u, h)
          | _, _ => .error .indexOutOfRange
        | _ => .error .badUserHost
      match parsed with
      | .error e => .error e
      | .ok (remoteUserHost, remoteUser, remoteHost) =>
        let remotePath := if right = [] then ['.'] else right
        if remoteUserHost = [] then .error .badRemoteArg
        else .ok ⟨remoteUserHost, remoteUser, remoteHost, remotePath⟩
    | _, _ => .error .indexOutOfRange

/-- The part of a string before its first `c`. -/
def before (c : Char) (s : Str) : Str := s.takeWhile (· != c)

/-- The part of a string after its first `c`. -/
def after (c : Char) (s : Str) : Str := (s.dropWhile (· != c)).drop 1

/-- The reference definition of target parsing, following the specification:
`left` and `right` are the parts of the target before and after its colon, and
`localUser` is the login name of the local user.  With an `@` in `left` the user
is the text before it and the host the text after it; without, the user is the
local user and the host is all of `left`.  An empty path becomes `"."`, and the
user-host string is user, `@`, host. -/
def parseTargetRef (localUser left right : Str) : Target :=
  let user := if '@' ∈ left then before '@' left else localUser
  let host := if '@' ∈ left then after '@' left else left
  { remoteUserHost := user ++ ['@'] ++ host
    remoteUser := user
    remoteHost := host
    remotePath := if right = [] then ['.'] else right }

/-! ## The session as a transition system -/

/-- The command line: the positional arguments (`flag.Args()`) and the `-l` flag.
The `-v` flag only adds log lines and is left out. -/
structure Config where
  args : List Str
  logFile : Str
  deriving DecidableEq, Repr

/-- The external commands the program runs. -/
inductive Proc
  /-- lines 81-94: `gcloud compute ssh -nNf -o ControlMaster=yes ...` -/
  | tunnel
  /-- lines 103-112: `gcloud compute ssh -O exit ...` -/
  | closeTunnel
  /-- lines 126-134: `gcloud compute instances describe ...` -/
  | describe
  /-- lines 157-160: `rsync rsyncArgs`, started from `main` -/
  | initialSync
  /-- lines 221-226: `rsync rsyncArgs`, run by the syncer goroutine -/
  | sync
  /-- lines 171-188: `fswatch fswatchArgs` -/
  | fswatch
  /-- lines 252-260: `gcloud compute ssh ...`, the interactive shell -/
  | shell
  deriving DecidableEq, Repr

/-- The deferred calls of `main`. -/
inductive Deferred
  /-- lines 101-119: run the close-master command -/
  | closeMaster
  /-- lines 191-196: interrupt fswatch and wait for it -/
  | stopWatcher
  /-- lines 239-242: receive from `rsyncTkt` -/
  | acquireTicket
  deriving DecidableEq, Repr

/-- What a run does that is visible from outside or fixes its shape.  An event
`start` records the call that starts a command, with the argument of its
argument vector that depends on the input (the user-host string, the host, the
rsync destination, the watched directory) and whether the call returned a
process; the fixed flags of the argument vectors are left out.  The instance
description is run by `CombinedOutput`, which starts and waits in one call: its
flag tells whether that call returned without error. -/
inductive Event
  | start (p : Proc) (arg : Str) (started : Bool)
  /-- a `Wait` (or the wait inside `Run`) returned: error flag and `Success()` -/
  | wait (p : Proc) (err : Bool) (success : Bool)
  /-- a `defer` statement was executed -/
  | deferred (d : Deferred)
  /-- a deferred call begins -/
  | tdBegin (d : Deferred)
  /-- a deferred call is over (it returned, or it panicked) -/
  | tdEnd (d : Deferred)
  deriving DecidableEq, Repr

/-- Program counter of the main task; the line of `sync-ssh.go` it is about to
execute. -/
inductive MainPc
  /-- lines 21-29 -/
  | openLog
  /-- lines 30-68 -/
  | parse
  /-- lines 72-78 -/
  | lookupUser
  /-- line 91 -/
  | startTunnel
  /-- line 98 -/
  | waitTunnel
  /-- line 101 -/
  | deferClose
  /-- lines 126-138 -/
  | describe
  /-- line 157 -/
  | startInitialSync
  /-- line 164 -/
  | waitInitialSync
  /-- lines 169-184 -/
  | pipeWatcher
  /-- line 188 -/
  | startWatcher
  /-- line 191 -/
  | deferWatcher
  /-- line 197 -/
  | goReader
  /-- line 209 -/
  | makeTicket
  /-- line 210 -/
  | fillTicket
  /-- line 211 -/
  | goSyncer
  /-- line 239 -/
  | deferAcquire
  /-- line 248 -/
  | lookPath
  /-- line 252 -/
  | startShell
  /-- line 264 -/
  | waitShell
  /-- the function `main` has returned or panicked: the next deferred call is taken -/
  | unwind
  /-- line 241 -/
  | tdAcquire
  /-- line 192 -/
  | tdSignal
  /-- line 193 -/
  | tdWaitWatcher
  /-- line 103 -/
  | tdStartClose
  /-- line 116; `started` tells whether line 103 returned a process -/
  | tdWaitClose (started : Bool)
  /-- the process is gone, with the panic that ended it if any -/
  | exited (panic : Option Abort)
  deriving DecidableEq, Repr

/-- Program counter of the goroutine of lines 197-206. -/
inductive ReaderPc
  | notStarted
  /-- line 199, `scanner.Scan()` -/
  | scan
  /-- line 200, `events <- scanner.Text()` -/
  | send (line : Str)
  /-- lines 202-205 -/
  | closing
  | done
  deriving DecidableEq, Repr

/-- Program counter of the goroutine of lines 211-238. -/
inductive SyncerPc
  | notStarted
  /-- line 213, `<-events` -/
  | recv
  /-- line 225, `<-rsyncTkt` -/
  | acquire
  /-- line 226, `rsyncCmd.Run()` is about to start rsync -/
  | run
  /-- line 226, rsync is running and `Run` waits for it -/
  | running
  /-- line 233, `rsyncTkt <- struct{}{}` -/
  | release
  /-- returned at line 231, after a failed run -/
  | failed
  /-- returned at line 216, events closed -/
  | finished
  deriving DecidableEq, Repr

/-- The state of the program and of its children. -/
structure State where
  cfg : Config
  pc : MainPc
  /-- the panic being unwound, if any -/
  panic : Option Abort
  /-- deferred calls registered and not yet run, latest first -/
  defers : List Deferred
  localArg : Str
  target : Target
  remoteHostIP : Str
  /-- the initial rsync has been started and is not known to have exited -/
  initialSync : Bool
  reader : ReaderPc
  syncer : SyncerPc
  /-- line 205, `close(events)`, has been executed -/
  eventsClosed : Bool
  /-- the channel `rsyncTkt`: `none` before `make`, else the number of buffered tokens -/
  rsyncTkt : Option Nat
  /-- events so far, latest first -/
  trace : List Event
  deriving DecidableEq, Repr

/-- What the outside world answers to the call a task makes: whether it
returned an error, the boolean it reports (`Success()` of a waited process,
the result of `Scan()`), and the text it produces (user name, command output,
scanned line).  A step uses the fields its call has. -/
structure Reply where
  err : Bool
  ok : Bool
  out : Str
  deriving DecidableEq, Repr

/-- One step of one task. -/
inductive Label
  | main (r : Reply)
  | reader (r : Reply)
  | syncer (r : Reply)
  /-- the unbuffered channel `events` passes a line from the reader to the syncer -/
  | handoff
  deriving DecidableEq, Repr

/-- The state in which the program starts. -/
def init (cfg : Config) : State :=
  { cfg := cfg, pc := .openLog, panic := none, defers := [], localArg := [],
    target := ⟨[], [], [], []⟩, remoteHostIP := [], initialSync := false,
    reader := .notStarted, syncer := .notStarted, eventsClosed := false,
    rsyncTkt := none, trace := [] }

/-- The destination argument of `rsyncArgs` (line 152). -/
def rsyncDest (s : State) : Str :=
  s.target.remoteUser ++ ['@'] ++ s.remoteHostIP ++ [':'] ++ s.target.remotePath

/-- A `panic` in `main`: the deferred calls run next. -/
def State.panicWith (s : State) (a : Abort) : State :=
  { s with pc := .unwind, panic := some a }

/-- The first statement of a deferred call. -/
def Deferred.entry : Deferred → MainPc
  | .closeMaster => .tdStartClose
  | .stopWatcher => .tdSignal
  | .acquireTicket => .tdAcquire

/-- Capacity of the channel `rsyncTkt` (line 209). -/
def tktCap : Nat := 1

/-- The main task executes the statement at its program counter. -/
def stepMain (s : State) (r : Reply) : Option State :=
  match s.pc with
  | .openLog =>
    if s.cfg.logFile ≠ [] ∧ r.err = true then some (s.panicWith .logFile)
    else some { s with pc := .parse }
  | .parse =>
    match s.cfg.args with
    | [localArg, remoteArg] =>
      match parseTarget (if r.err then none else some r.out) remoteArg with
      | .error e => some (s.panicWith e)
      | .ok t => some { s with pc := .lookupUser, localArg := localArg, target := t }
    | _ => some (s.panicWith .usage)
  | .lookupUser =>
    if r.err then some (s.panicWith .userLookup) else some { s with pc := .startTunnel }
  | .startTunnel =>
    let s := { s with trace := .start .tunnel s.target.remoteUserHost (!r.err) :: s.trace }
    if r.err then some (s.panicWith .tunnelStart) else some { s with pc := .waitTunnel }
  | .waitTunnel =>
    let s := { s with trace := .wait .tunnel r.err r.ok :: s.trace }
    if r.err || !r.ok then some (s.panicWith .tunnelWait) else some { s with pc := .deferClose }
  | .deferClose =>
    some { s with pc := .describe, defers := .closeMaster :: s.defers,
                  trace := .deferred .closeMaster :: s.trace }
  | .describe =>
    let s := { s with trace := .start .describe s.target.remoteHost (!r.err) :: s.trace }
    if r.err then some (s.panicWith .describe)
    else some { s with pc := .startInitialSync, remoteHostIP := strings.TrimSpace r.out }
  | .startInitialSync =>
    let s := { s with trace := .start .initialSync (rsyncDest s) (!r.err) :: s.trace }
    if r.err then some (s.panicWith .rsyncStart)
    else some { s with pc := .waitInitialSync, initialSync := true }
  | .waitInitialSync =>
    let s := { s with trace := .wait .initialSync r.err r.ok :: s.trace }
    if r.err then some (s.panicWith .rsyncWait)
    else some { s with pc := .pipeWatcher, initialSync := false }
  | .pipeWatcher =>
    if r.err then some (s.panicWith .watchPipe) else some { s with pc := .startWatcher }
  | .startWatcher =>
    let s := { s with trace := .start .fswatch s.localArg (!r.err) :: s.trace }
    if r.err then some (s.panicWith .watchStart) else some { s with pc := .deferWatcher }
  | .deferWatcher =>
    some { s with pc := .goReader, defers := .stopWatcher :: s.defers,
                  trace := .deferred .stopWatcher :: s.trace }
  | .goReader => some { s with pc := .makeTicket, reader := .scan }
  | .makeTicket => some { s with pc := .fillTicket, rsyncTkt := some 0 }
  | .fillTicket =>
    match s.rsyncTkt with
    | some k => if k < tktCap then some { s with pc := .goSyncer, rsyncTkt := some (k + 1) } else none
    | none => none
  | .goSyncer => some { s with pc := .deferAcquire, syncer := .recv }
  | .deferAcquire =>
    some { s with pc := .lookPath, defers := .acquireTicket :: s.defers,
                  trace := .deferred .acquireTicket :: s.trace }
  | .lookPath =>
    if r.err then some (s.panicWith .lookPath) else some { s with pc := .startShell }
  | .startShell =>
    let s := { s with trace := .start .shell s.target.remoteUserHost (!r.err) :: s.trace }
    if r.err then some (s.panicWith .shellStart) else some { s with pc := .waitShell }
  | .waitShell =>
    let s := { s with trace := .wait .shell r.err r.ok :: s.trace }
    if r.err then some (s.panicWith .shellWait) else some { s with pc := .unwind }
  | .unwind =>
    match s.defers with
    | [] => some { s with pc := .exited s.panic }
    | d :: ds => some { s with pc := d.entry, defers := ds, trace := .tdBegin d :: s.trace }
  | .tdAcquire =>
    match s.rsyncTkt with
    | some (k + 1) =>
      some { s with pc := .unwind, rsyncTkt := some k, trace := .tdEnd .acquireTicket :: s.trace }
    | _ => none
  | .tdSignal => some { s with pc := .tdWaitWatcher }
  | .tdWaitWatcher =>
    some { s with pc := .unwind,
                  trace := .tdEnd .stopWatcher :: .wait .fswatch r.err r.ok :: s.trace }
  | .tdStartClose =>
    some { s with pc := .tdWaitClose (!r.err),
                  trace := .start .closeTunnel s.target.remoteUserHost (!r.err) :: s.trace }
  | .tdWaitClose true =>
    some { s with pc := .unwind,
                  trace := .tdEnd .closeMaster :: .wait .closeTunnel r.err r.ok :: s.trace }
  | .tdWaitClose false =>
    some { s with pc := .unwind, panic := some .nilProcess,
                  trace := .tdEnd .closeMaster :: s.trace }
  | .exited _ => none

/-- The reader goroutine executes the statement at its program counter. -/
def stepReader (s : State) (r : Reply) : Option State :=
  match s.reader with
  | .scan => if r.ok then some { s with reader := .send r.out } else some { s with reader := .closing }
  | .closing => some { s with reader := .done, eventsClosed := true }
  | _ => none

/-- The syncer goroutine executes the statement at its program counter. -/
def stepSyncer (s : State) (r : Reply) : Option State :=
  match s.syncer with
  | .recv => if s.eventsClosed then some { s with syncer := .finished } else none
  | .acquire =>
    match s.rsyncTkt with
    | some (k + 1) => some { s with syncer := .run, rsyncTkt := some k }
    | _ => none
  | .run =>
    let s := { s with trace := .start .sync (rsyncDest s) (!r.err) :: s.trace }
    if r.err then some { s with syncer := .failed } else some { s with syncer := .running }
  | .running =>
    let s := { s with trace := .wait .sync r.err r.ok :: s.trace }
    if r.err || !r.ok then some { s with syncer := .failed } else some { s with syncer := .release }
  | .release =>
    match s.rsyncTkt with
    | some k => if k < tktCap then some { s with syncer := .recv, rsyncTkt := some (k + 1) } else none
    | none => none
  | _ => none

/-- The value sent on `events` is received by the syncer. -/
def stepHandoff (s : State) : Option State :=
  match s.reader, s.syncer with
  | .send _, .recv => if s.eventsClosed then none else some { s with reader := .scan, syncer := .acquire }
  | _, _ => none

/-- The process has exited. -/
def State.exited (s : State) : Bool :=
  match s.pc with
  | .exited _ => true
  | _ => false

/-- One step of the program: nothing moves once the process has exited. -/
def step (s : State) (l : Label) : Option State :=
  if s.exited then none
  else
    match l with
    | .main r => stepMain s r
    | .reader r => stepReader s r
    | .syncer r => stepSyncer s r
    | .handoff => stepHandoff s

/-- Run a schedule: the steps named by the labels, in order. -/
def exec (s : State) : List Label → Option State
  | [] => some s
  | l :: ls => (step s l).bind fun s' => exec s' ls

/-- State `t` can be reached from state `s`. -/
def Reaches (s t : State) : Prop := ∃ ls, exec s ls = some t

/-- State `s` occurs in some run of the program on command line `cfg`. -/
def Reachable (cfg : Config) (s : State) : Prop := Reaches (init cfg) s

/-! ## Observations on states and traces -/

/-- The deferred calls registered in a trace, latest first: the order in which
Go runs them. -/
def registered : List Event → List Deferred
  | [] => []
  | .deferred d :: tr => d :: registered tr
  | _ :: tr => registered tr

/-- The begin and end events of deferred calls in a trace, in the order in
which they happened. -/
def teardownLog : List Event → List Event
  | [] => []
  | .tdBegin d :: tr => teardownLog tr ++ [.tdBegin d]
  | .tdEnd d :: tr => teardownLog tr ++ [.tdEnd d]
  | _ :: tr => teardownLog tr

/-- Running the deferred calls `ds` one after the other, each ending before the
next begins. -/
def unwinding : List Deferred → List Event
  | [] => []
  | d :: ds => .tdBegin d :: .tdEnd d :: unwinding ds

/-- How often line 103 was executed: the attempts to start the close-master
command (`-O exit`), whether or not a process was started. -/
def closeAttempts : List Event → Nat
  | [] => 0
  | .start .closeTunnel _ _ :: tr => closeAttempts tr + 1
  | _ :: tr => closeAttempts tr

/-- How often the close-master command (`-O exit`) was issued: the executions
of line 103 that started a process. -/
def closeCount : List Event → Nat
  | [] => 0
  | .start .closeTunnel _ started :: tr => closeCount tr + (if started then 1 else 0)
  | _ :: tr => closeCount tr

/-- How often line 103 returned an error, so that no close-master command was
issued (lines 113-115 log the error). -/
def closeFailed : List Event → Nat
  | [] => 0
  | .start .closeTunnel _ started :: tr => closeFailed tr + (if started then 0 else 1)
  | _ :: tr => closeFailed tr

/-- The open-master command was waited for and had exited with success. -/
def TunnelOpened (tr : List Event) : Prop := Event.wait .tunnel false true ∈ tr

instance (tr : List Event) : Decidable (TunnelOpened tr) := by
  unfold TunnelOpened; infer_instance

/-- The destinations of the rsync runs started in a trace (initial and
incremental), latest first. -/
def mirrorStarts : List Event → List Str
  | [] => []
  | .start .initialSync dest _ :: tr => dest :: mirrorStarts tr
  | .start .sync dest _ :: tr => dest :: mirrorStarts tr
  | _ :: tr => mirrorStarts tr

/-- The interactive shell was started (or its start was attempted). -/
def ShellStarted (tr : List Event) : Prop := ∃ arg ok, Event.start .shell arg ok ∈ tr

/-- Number of rsync runs in flight: the initial one and the syncer's. -/
def inFlight (s : State) : Nat :=
  (if s.initialSync then 1 else 0) + (if s.syncer = .running then 1 else 0)

/-- Number of tokens buffered in `rsyncTkt`. -/
def tokens (s : State) : Nat := s.rsyncTkt.getD 0

/-- The syncer goroutine is alive and has the token: it has received it at
line 225 and not yet sent it back at line 233.  A syncer that has returned is
not a task any more and holds nothing. -/
def SyncerPc.holds : SyncerPc → Bool
  | .run | .running | .release => true
  | _ => false

/-- Number of live tasks holding the token: the syncer from line 225 to line
233, the main task once line 241 has received it. -/
def holders (s : State) : Nat :=
  (if s.syncer.holds then 1 else 0) + (if Event.tdEnd .acquireTicket ∈ s.trace then 1 else 0)

/-- Number of tokens lost: one when the syncer has returned at line 231 without
the send of line 233. -/
def lostTokens (s : State) : Nat := if s.syncer = .failed then 1 else 0

/-! ## Invariants -/

/-- Position of a program counter in the straight-line part of `main`; `100`
once `main` has returned or panicked. -/
def MainPc.rank : MainPc → Nat
  | .openLog => 0 | .parse => 1 | .lookupUser => 2 | .startTunnel => 3 | .waitTunnel => 4
  | .deferClose => 5 | .describe => 6 | .startInitialSync => 7 | .waitInitialSync => 8
  | .pipeWatcher => 9 | .startWatcher => 10 | .deferWatcher => 11 | .goReader => 12
  | .makeTicket => 13 | .fillTicket => 14 | .goSyncer => 15 | .deferAcquire => 16
  | .lookPath => 17 | .startShell => 18 | .waitShell => 19
  | _ => 100

/-- The deferred calls registered when the straight-line part of `main` is at a
program counter. -/
def MainPc.regs (pc : MainPc) : List Deferred :=
  if pc.rank ≤ 5 then []
  else if pc.rank ≤ 11 then [.closeMaster]
  else if pc.rank ≤ 16 then [.stopWatcher, .closeMaster]
  else [.acquireTicket, .stopWatcher, .closeMaster]

/-- The teardown events still to come, given the program counter and the
deferred calls not yet begun. -/
def pending (pc : MainPc) (defers : List Deferred) : List Event :=
  match pc with
  | .tdAcquire => .tdEnd .acquireTicket :: unwinding defers
  | .tdSignal | .tdWaitWatcher => .tdEnd .stopWatcher :: unwinding defers
  | .tdStartClose | .tdWaitClose _ => .tdEnd .closeMaster :: unwinding defers
  | _ => unwinding defers

/-- The close-master commands still to come. -/
def pendingClose (pc : MainPc) (defers : List Deferred) : Nat :=
  (if pc = .tdStartClose then 1 else 0) + defers.count .closeMaster

/-- The main task has not yet executed line 241: it is between the `defer` of
line 239 and the shell's exit, or about to run the deferred call of line 239,
or inside it. -/
def BeforeAcquire (s : State) : Prop :=
  (16 ≤ s.pc.rank ∧ s.pc.rank ≤ 19) ∨
  (s.pc = .unwind ∧ s.defers = [.acquireTicket, .stopWatcher, .closeMaster]) ∨
  (s.pc = .tdAcquire ∧ s.defers = [.stopWatcher, .closeMaster])

/-- Invariant of the main task: what is deferred, what has been torn down, and
how the close-master command follows the open-master command. -/
structure MainInv (s : State) : Prop where
  startup : s.pc.rank < 100 →
    s.panic = none ∧ teardownLog s.trace = [] ∧ s.defers = s.pc.regs ∧
    registered s.trace = s.pc.regs ∧ (s.pc.rank ≤ 4 → ¬ TunnelOpened s.trace) ∧
    (s.pc.rank ≤ 18 → ¬ ShellStarted s.trace) ∧ (s.pc.rank ≤ 15 → s.syncer = .notStarted) ∧
    (s.pc.rank ≤ 7 → mirrorStarts s.trace = [])
  order : teardownLog s.trace ++ pending s.pc s.defers = unwinding (registered s.trace)
  close : closeAttempts s.trace + pendingClose s.pc s.defers =
    (registered s.trace).count .closeMaster
  opened : (registered s.trace).count .closeMaster + (if s.pc = .deferClose then 1 else 0)
    = if TunnelOpened s.trace then 1 else 0
  shell : ShellStarted s.trace →
    registered s.trace = [.acquireTicket, .stopWatcher, .closeMaster]
  done : ∀ p, s.pc = .exited p → s.defers = [] ∧ p = s.panic
  before : s.syncer ≠ .notStarted → Event.tdEnd .acquireTicket ∉ s.trace → BeforeAcquire s
  stage : registered s.trace = [] ∨ registered s.trace = [.closeMaster] ∨
    registered s.trace = [.stopWatcher, .closeMaster] ∨
    registered s.trace = [.acquireTicket, .stopWatcher, .closeMaster]

/-- Invariant of the ticket: who holds the token of `rsyncTkt`. -/
structure TaskInv (s : State) : Prop where
  noTicket : s.pc.rank ≤ 13 → s.rsyncTkt = none
  filling : s.pc = .fillTicket → s.rsyncTkt = some 0
  filled : s.pc = .goSyncer → s.rsyncTkt = some 1
  early : s.pc.rank ≤ 15 → s.syncer = .notStarted
  fresh : s.pc.rank < 100 → Event.tdEnd .acquireTicket ∉ s.trace
  made : s.syncer ≠ .notStarted → ∃ k, s.rsyncTkt = some k
  initial : s.initialSync = true → s.syncer = .notStarted ∧ s.rsyncTkt = none
  synced : 9 ≤ s.pc.rank → s.pc.rank ≤ 19 → s.initialSync = false
  conserve : ∀ k, s.rsyncTkt = some k → s.pc ≠ .fillTicket →
    k + holders s + lostTokens s = 1

/-- A run that panicked before it ever started rsync or the syncer. -/
def Aborted (s : State) : Prop :=
  mirrorStarts s.trace = [] ∧ s.syncer = .notStarted ∧ s.pc.rank = 100 ∧ s.panic ≠ none

/-- A run that stopped at the target string: nothing has been started, and the
program is either before the end of parsing or panicking out of it. -/
def Rejected (cfg : Config) (s : State) : Prop :=
  s.cfg = cfg ∧ s.trace = [] ∧ s.defers = [] ∧ s.reader = .notStarted ∧ s.syncer = .notStarted ∧
  ((s.pc = .openLog ∧ s.panic = none) ∨ (s.pc = .parse ∧ s.panic = none) ∨
    (s.pc = .unwind ∧ s.panic ≠ none) ∨ (∃ e, s.pc = .exited (some e)))

/-- The state a schedule leads to (the initial state if the schedule cannot be
run). -/
def stateAfter (cfg : Config) (ls : List Label) : State :=
  (exec (init cfg) ls).getD (init cfg)


/-! ## Sample runs -/

/-- Sync `./src` to `vm1:`, logging to standard output. -/
def demoCfg : Config := ⟨["./src".toList, "vm1:".toList], []⟩

/-- Sync `./src` to `:/p`, a target with nothing before the colon. -/
def emptyLeftCfg : Config := ⟨["./src".toList, ":/p".toList], []⟩

/-- The main task takes a step and its call succeeds; where a text is asked for
(the local user name) the answer is `bob`. -/
def mainOk : Label := .main ⟨false, true, "bob".toList⟩

/-- The main task takes a step: a process it waits for has exited with a
non-zero status, the wait itself returning no error. -/
def mainNonZero : Label := .main ⟨false, false, []⟩

/-- The main task takes a step; the command it runs prints only white space. -/
def mainBlank : Label := .main ⟨false, true, " \n".toList⟩

/-- The main task takes a step; the command it runs prints an address. -/
def mainAddr : Label := .main ⟨false, true, "10.0.0.7\n".toList⟩

/-- Startup up to the point where the instance description is run (line 133). -/
def toDescribe : List Label := List.replicate 6 mainOk

/-- Startup with every call succeeding, up to the start of the shell (line 248). -/
def toShell : List Label := toDescribe ++ mainAddr :: List.replicate 10 mainOk

/-- The shell is found, started and exits: `main` returns. -/
def shellSession : List Label := List.replicate 3 mainOk

/-- A whole session without file changes: startup, shell, the three deferred
calls, exit. -/
def cleanRun : List Label := toShell ++ shellSession ++ List.replicate 9 mainOk

/-- The watcher reports a change, the syncer receives it, takes the ticket and
starts rsync. -/
def syncStarted : List Label :=
  [.reader ⟨false, true, "./src/b.txt".toList⟩, .handoff,
   .syncer ⟨false, true, []⟩, .syncer ⟨false, true, []⟩]

/-- A session in which the one incremental rsync exits non-zero, and the shell
exits afterwards. -/
def failedSyncRun : List Label :=
  toShell ++ syncStarted ++ .syncer ⟨false, false, []⟩ :: shellSession

/-- A session whose initial rsync exits non-zero, up to the wait for the shell. -/
def failedMirrorRun : List Label :=
  toDescribe ++ [mainAddr, mainOk, mainNonZero] ++ List.replicate 10 mainOk

/-- Startup in which the instance description prints only white space, up to
the start of the initial rsync. -/
def blankIpRun : List Label := toDescribe ++ [mainBlank, mainOk]

/-- The main task takes a step and its call returns an error. -/
def mainFail : Label := .main ⟨true, false, []⟩

/-- A whole session without file changes in which the start of the close-master
command fails (line 103 returns an error): startup, shell, the deferred receive
and the stop of the watcher, then the failed start, the `Wait` on the nil
process, and the exit. -/
def closeFailRun : List Label :=
  toShell ++ shellSession ++ List.replicate 6 mainOk ++ [mainFail, mainOk, mainOk]

/-- A session without file changes up to the moment the deferred receive of
line 241 has taken the token: startup, shell, `main` returns, the deferred call
of line 239 runs.  The watcher and the control channel are still up. -/
def ticketTakenRun : List Label := toShell ++ shellSession ++ [mainOk, mainOk]

/-! ## Lemmas on strings and target parsing -/

namespace strings

theorem Count_eq_count (s : Str) (c : Char) : Count s c = s.count c := by
  induction s with
  | nil => rfl
  | cons a as ih =>
    by_cases h : a = c
    · simp [Count, h, ih]
    · simp [Count, h, ih, List.count_cons]

theorem Split_of_not_mem (s : Str) (c : Char) (h : c ∉ s) : Split s c = [s] := by
  induction s with
  | nil => rfl
  | cons a as ih =>
    have ha : ¬ a = c := fun e => h (by simp [e])
    have has : c ∉ as := fun m => h (List.mem_cons_of_mem _ m)
    simp [Split, ha, ih has]

theorem Split_append (l r : Str) (c : Char) (h : c ∉ l) :
    Split (l ++ c :: r) c = l :: Split r c := by
  induction l with
  | nil => simp [Split]
  | cons a as ih =>
    have ha : ¬ a = c := fun e => h (by simp [e])
    have has : c ∉ as := fun m => h (List.mem_cons_of_mem _ m)
    simp [Split, ha, ih has]

end strings

theorem before_append (c : Char) (l r : Str) (h : c ∉ l) : before c (l ++ c :: r) = l := by
  induction l with
  | nil => simp [before]
  | cons a as ih =>
    have ha : ¬ a = c := fun e => h (by simp [e])
    have has : c ∉ as := fun m => h (List.mem_cons_of_mem _ m)
    have := ih has
    simp [before] at this ⊢
    simp [ha, this]

theorem after_append (c : Char) (l r : Str) (h : c ∉ l) : after c (l ++ c :: r) = r := by
  induction l with
  | nil => simp [after]
  | cons a as ih =>
    have ha : ¬ a = c := fun e => h (by simp [e])
    have has : c ∉ as := fun m => h (List.mem_cons_of_mem _ m)
    have := ih has
    simp [after] at this ⊢
    simp [ha, this]

theorem split_at_first (c : Char) (s : Str) (h : c ∈ s) :
    s = before c s ++ c :: after c s ∧ c ∉ before c s := by
  induction s with
  | nil => simp at h
  | cons a as ih =>
    by_cases ha : a = c
    · subst ha; simp [before, after]
    · have hm : c ∈ as := by
        rcases List.mem_cons.1 h with e | m
        · exact absurd e.symm ha
        · exact m
      obtain ⟨h1, h2⟩ := ih hm
      simp only [before, after] at h1 h2 ⊢
      have hne : (a != c) = true := by simp [ha]
      simp only [List.takeWhile_cons, List.dropWhile_cons, hne, if_true]
      refine ⟨by simpa using h1, ?_⟩
      intro hmem
      rcases List.mem_cons.1 hmem with e | m
      · exact ha e.symm
      · exact h2 m

theorem count_colon_append (c : Char) (l r : Str) (hl : c ∉ l) (hr : c ∉ r) :
    strings.Count (l ++ c :: r) c = 1 := by
  rw [strings.Count_eq_count]
  simp [List.count_append, List.count_eq_zero_of_not_mem hl, List.count_eq_zero_of_not_mem hr]

theorem parseTarget_noAt (cu : Option Str) (l r : Str) (hl : ':' ∉ l) (hr : ':' ∉ r)
    (hat : '@' ∉ l) :
    parseTarget cu (l ++ ':' :: r) =
      match cu with
      | none => .error .userLookup
      | some name => .ok ⟨name ++ '@' :: l, name, l, if r = [] then ['.'] else r⟩ := by
  have hc := count_colon_append ':' l r hl hr
  have h0 : strings.Count l '@' = 0 := by
    rw [strings.Count_eq_count]; exact List.count_eq_zero_of_not_mem hat
  unfold parseTarget
  rw [if_neg (by simp [hc]), strings.Split_append l r ':' hl, strings.Split_of_not_mem r ':' hr]
  cases cu <;> simp [h0]

theorem parseTarget_oneAt (cu : Option Str) (u h r : Str) (hu : ':' ∉ u) (hh : ':' ∉ h)
    (hr : ':' ∉ r) (hau : '@' ∉ u) (hah : '@' ∉ h) :
    parseTarget cu ((u ++ '@' :: h) ++ ':' :: r) = .ok ⟨u ++ '@' :: h, u, h, if r = [] then ['.'] else r⟩ := by
  have hl : ':' ∉ u ++ '@' :: h := by simp [hu, hh]
  have hc := count_colon_append ':' (u ++ '@' :: h) r hl hr
  have h1 : strings.Count (u ++ '@' :: h) '@' = 1 := count_colon_append '@' u h hau hah
  have hs : strings.Split (u ++ '@' :: h) '@' = [u, h] := by
    rw [strings.Split_append u h '@' hau, strings.Split_of_not_mem h '@' hah]
  have hne : u ++ '@' :: h ≠ [] := by simp
  generalize u ++ '@' :: h = l at hl hc h1 hs hne ⊢
  unfold parseTarget
  rw [if_neg (fun hn => hn hc), strings.Split_append _ r ':' hl, strings.Split_of_not_mem r ':' hr]
  simp [h1, hs, hne]

theorem parseTarget_manyAt (cu : Option Str) (l r : Str) (hl : ':' ∉ l) (hr : ':' ∉ r)
    (hat : 2 ≤ l.count '@') :
    parseTarget cu (l ++ ':' :: r) = .error .badUserHost := by
  have hc := count_colon_append ':' l r hl hr
  obtain ⟨n, hn⟩ : ∃ n, strings.Count l '@' = n + 2 := by
    rw [strings.Count_eq_count]; exact ⟨l.count '@' - 2, by omega⟩
  unfold parseTarget
  rw [if_neg (by simp [hc]), strings.Split_append l r ':' hl, strings.Split_of_not_mem r ':' hr]
  simp [hn]

theorem parseTarget_colons (cu : Option Str) (s : Str) (h : s.count ':' ≠ 1) :
    parseTarget cu s = .error .remoteFormat := by
  unfold parseTarget
  rw [if_pos (by rw [strings.Count_eq_count]; exact h)]

/-! ## The invariants are preserved -/

theorem TunnelOpened_cons (e : Event) (tr : List Event) :
    TunnelOpened (e :: tr) ↔ e = .wait .tunnel false true ∨ TunnelOpened tr := by
  unfold TunnelOpened
  rw [List.mem_cons]
  constructor
  · rintro (h | h)
    · exact Or.inl h.symm
    · exact Or.inr h
  · rintro (h | h)
    · exact Or.inl h.symm
    · exact Or.inr h

theorem ShellStarted_cons (e : Event) (tr : List Event) :
    ShellStarted (e :: tr) ↔ (∃ arg ok, e = .start .shell arg ok) ∨ ShellStarted tr := by
  unfold ShellStarted
  constructor
  · rintro ⟨a, ok, h⟩
    rcases List.mem_cons.1 h with h | h
    · exact Or.inl ⟨a, ok, h.symm⟩
    · exact Or.inr ⟨a, ok, h⟩
  · rintro (⟨a, ok, h⟩ | ⟨a, ok, h⟩)
    · exact ⟨a, ok, by simp [h]⟩
    · exact ⟨a, ok, List.mem_cons_of_mem _ h⟩

theorem ShellStarted_nil : ¬ ShellStarted [] := by
  unfold ShellStarted; simp

theorem TunnelOpened_nil : ¬ TunnelOpened [] := by
  unfold TunnelOpened; simp

theorem mainInv_init (cfg : Config) : MainInv (init cfg) := by
  constructor <;> simp [init, MainPc.rank, MainPc.regs, teardownLog, registered, pending, unwinding,
    closeAttempts, pendingClose, TunnelOpened_nil, ShellStarted_nil, mirrorStarts]

set_option maxHeartbeats 4000000 in
theorem mainInv_stepMain (s s' : State) (r : Reply) (h : MainInv s) (hs : stepMain s r = some s') :
    MainInv s' := by
  obtain ⟨h1, h2, h3, h4, h5, h6, h7, h8⟩ := h
  rcases s with ⟨cfg, pc, pn, defers, la, tg, ip, isy, rd, sy, ec, tk, tr⟩
  cases pc <;> simp only [stepMain] at hs
  all_goals (repeat' split at hs)
  all_goals (first | (simp only [Option.some.injEq] at hs; subst hs) | (exact absurd hs (by simp)))
  all_goals simp only [MainPc.rank, MainPc.regs, pending, pendingClose, BeforeAcquire] at h1 h2 h3 h4 h5 h6 h7
  all_goals (try simp at h1)
  all_goals (try simp at h3)
  all_goals (try simp at h4)
  all_goals (try simp at h6)
  all_goals (try simp at h7)
  all_goals
    constructor <;>
    simp only [State.panicWith, MainPc.rank, MainPc.regs, teardownLog, registered, pending, unwinding,
      closeAttempts, pendingClose, TunnelOpened_cons, ShellStarted_cons, Deferred.entry, mirrorStarts,
      BeforeAcquire]
  all_goals (try simp)
  all_goals (try simp_all [unwinding])
  all_goals (try omega)
  all_goals first
    | (rename_i d ds; cases d <;> simp_all [unwinding] <;> omega)
    | (cases hr1 : r.err <;> cases hr2 : r.ok <;> simp_all)

theorem mainInv_stepReader (s s' : State) (r : Reply) (h : MainInv s)
    (hs : stepReader s r = some s') : MainInv s' := by
  obtain ⟨h1, h2, h3, h4, h5, h6, h7, h8⟩ := h
  rcases s with ⟨cfg, pc, pn, defers, la, tg, ip, isy, rd, sy, ec, tk, tr⟩
  cases rd <;> simp only [stepReader] at hs
  all_goals (repeat' split at hs)
  all_goals (first | (simp only [Option.some.injEq] at hs; subst hs) | (exact absurd hs (by simp)))
  all_goals exact ⟨h1, h2, h3, h4, h5, h6, h7, h8⟩

theorem mainInv_stepHandoff (s s' : State) (h : MainInv s)
    (hs : stepHandoff s = some s') : MainInv s' := by
  obtain ⟨h1, h2, h3, h4, h5, h6, h7, h8⟩ := h
  rcases s with ⟨cfg, pc, pn, defers, la, tg, ip, isy, rd, sy, ec, tk, tr⟩
  cases rd <;> cases sy <;> simp only [stepHandoff] at hs
  all_goals (repeat' split at hs)
  all_goals (first | (simp only [Option.some.injEq] at hs; subst hs) | (exact absurd hs (by simp)))
  refine ⟨?_, h2, h3, h4, h5, h6, ?_, h8⟩
  · intro hr
    have := h1 hr
    simp_all
  · intro _ ht
    exact h7 (by simp) ht

set_option maxHeartbeats 4000000 in
theorem mainInv_stepSyncer (s s' : State) (r : Reply) (h : MainInv s)
    (hs : stepSyncer s r = some s') : MainInv s' := by
  obtain ⟨h1, h2, h3, h4, h5, h6, h7, h8⟩ := h
  rcases s with ⟨cfg, pc, pn, defers, la, tg, ip, isy, rd, sy, ec, tk, tr⟩
  cases sy <;> simp only [stepSyncer] at hs
  all_goals (repeat' split at hs)
  all_goals (first | (simp only [Option.some.injEq] at hs; subst hs) | (exact absurd hs (by simp)))
  all_goals simp only [BeforeAcquire] at h7
  all_goals (try simp at h7)
  all_goals
    refine ⟨?_, ?_, ?_, ?_, ?_, h6, ?_, ?_⟩ <;>
    simp only [teardownLog, registered, closeAttempts, TunnelOpened_cons, ShellStarted_cons,
      mirrorStarts, BeforeAcquire]
  all_goals (first | assumption | skip)
  all_goals (try (intro hr; have hh := h1 hr; simp at hh; simp_all; done))
  all_goals (try (simp; assumption))
  all_goals (try simp_all)
  all_goals (intro hr; have hh := h1 hr; omega)

theorem taskInv_init (cfg : Config) : TaskInv (init cfg) := by
  constructor <;> simp [init, MainPc.rank, holders, lostTokens, SyncerPc.holds]

set_option maxHeartbeats 4000000 in
theorem taskInv_stepMain (s s' : State) (r : Reply) (h : TaskInv s) (hs : stepMain s r = some s') :
    TaskInv s' := by
  obtain ⟨h1, h2, h9, h3, h4, h5, h6, h7, h8⟩ := h
  rcases s with ⟨cfg, pc, pn, defers, la, tg, ip, isy, rd, sy, ec, tk, tr⟩
  cases pc <;> simp only [stepMain] at hs
  all_goals (repeat' split at hs)
  all_goals (first | (simp only [Option.some.injEq] at hs; subst hs) | (exact absurd hs (by simp)))
  all_goals simp only [MainPc.rank, holders, lostTokens] at h1 h2 h3 h4 h5 h6 h7 h8 h9
  all_goals (try simp at h1)
  all_goals (try simp at h2)
  all_goals (try simp at h3)
  all_goals (try simp at h4)
  all_goals (try simp at h7)
  all_goals (try simp at h8)
  all_goals (try simp at h9)
  all_goals
    constructor <;>
    simp only [State.panicWith, MainPc.rank, holders, lostTokens, Deferred.entry]
  all_goals (try simp)
  all_goals (try simp_all)
  all_goals (try omega)
  all_goals first
    | (rename_i d ds; cases d <;> simp_all [SyncerPc.holds])
    | simp_all [SyncerPc.holds]

theorem taskInv_stepReader (s s' : State) (r : Reply) (h : TaskInv s)
    (hs : stepReader s r = some s') : TaskInv s' := by
  obtain ⟨h1, h2, h9, h3, h4, h5, h6, h7, h8⟩ := h
  rcases s with ⟨cfg, pc, pn, defers, la, tg, ip, isy, rd, sy, ec, tk, tr⟩
  cases rd <;> simp only [stepReader] at hs
  all_goals (repeat' split at hs)
  all_goals (first | (simp only [Option.some.injEq] at hs; subst hs) | (exact absurd hs (by simp)))
  all_goals exact ⟨h1, h2, h9, h3, h4, h5, h6, h7, h8⟩

theorem taskInv_stepHandoff (s s' : State) (h : TaskInv s)
    (hs : stepHandoff s = some s') : TaskInv s' := by
  obtain ⟨h1, h2, h9, h3, h4, h5, h6, h7, h8⟩ := h
  rcases s with ⟨cfg, pc, pn, defers, la, tg, ip, isy, rd, sy, ec, tk, tr⟩
  cases rd <;> cases sy <;> simp only [stepHandoff] at hs
  all_goals (repeat' split at hs)
  all_goals (first | (simp only [Option.some.injEq] at hs; subst hs) | (exact absurd hs (by simp)))
  simp only [holders, lostTokens, SyncerPc.holds] at h8
  constructor <;> simp only [holders, lostTokens, SyncerPc.holds] <;> simp_all

set_option maxHeartbeats 4000000 in
theorem taskInv_stepSyncer (s s' : State) (r : Reply) (h : TaskInv s)
    (hs : stepSyncer s r = some s') : TaskInv s' := by
  obtain ⟨h1, h2, h9, h3, h4, h5, h6, h7, h8⟩ := h
  rcases s with ⟨cfg, pc, pn, defers, la, tg, ip, isy, rd, sy, ec, tk, tr⟩
  cases sy <;> simp only [stepSyncer] at hs
  all_goals (repeat' split at hs)
  all_goals (first | (simp only [Option.some.injEq] at hs; subst hs) | (exact absurd hs (by simp)))
  all_goals simp only [holders, lostTokens, SyncerPc.holds] at h8
  all_goals (try simp at h1)
  all_goals (try simp at h2)
  all_goals (try simp at h3)
  all_goals (try simp at h5)
  all_goals (try simp at h6)
  all_goals (try simp at h8)
  all_goals
    constructor <;>
    simp only [holders, lostTokens, SyncerPc.holds]
  all_goals (try simp)
  all_goals (try simp_all)
  all_goals (try omega)
  all_goals (try (intro hpc; subst hpc; simp [MainPc.rank] at h3))
  all_goals (try (intro k hk hpc; have hh := h8 k hk hpc; split_ifs at hh <;>
    first | omega | exact ⟨by omega, ‹_›⟩))
  all_goals (simp only [tktCap] at *; intro hpc; have hh := h8 hpc; split_ifs at hh ⊢ <;> omega)

theorem mainInv_step (s s' : State) (l : Label) (h : MainInv s) (hs : step s l = some s') :
    MainInv s' := by
  unfold step at hs
  split at hs
  · exact absurd hs (by simp)
  · cases l with
    | main r => exact mainInv_stepMain s s' r h hs
    | reader r => exact mainInv_stepReader s s' r h hs
    | syncer r => exact mainInv_stepSyncer s s' r h hs
    | handoff => exact mainInv_stepHandoff s s' h hs

theorem taskInv_step (s s' : State) (l : Label) (h : TaskInv s) (hs : step s l = some s') :
    TaskInv s' := by
  unfold step at hs
  split at hs
  · exact absurd hs (by simp)
  · cases l with
    | main r => exact taskInv_stepMain s s' r h hs
    | reader r => exact taskInv_stepReader s s' r h hs
    | syncer r => exact taskInv_stepSyncer s s' r h hs
    | handoff => exact taskInv_stepHandoff s s' h hs

/-- A property kept by every step holds all along a schedule. -/
theorem exec_preserves (P : State → Prop) (hP : ∀ s l s', P s → step s l = some s' → P s')
    (ls : List Label) : ∀ s t, P s → exec s ls = some t → P t := by
  induction ls with
  | nil =>
    intro s t hs h
    simp only [exec, Option.some.injEq] at h
    exact h ▸ hs
  | cons l ls ih =>
    intro s t hs h
    simp only [exec] at h
    cases hst : step s l with
    | none => simp [hst] at h
    | some s' =>
      rw [hst] at h
      exact ih s' t (hP s l s' hs hst) h

theorem exec_append (ls ms : List Label) : ∀ s,
    exec s (ls ++ ms) = (exec s ls).bind fun t => exec t ms := by
  induction ls with
  | nil => intro s; rfl
  | cons l ls ih =>
    intro s
    simp only [List.cons_append, exec]
    cases step s l with
    | none => rfl
    | some s' => exact ih s'

theorem Reaches.trans {s t u : State} (h1 : Reaches s t) (h2 : Reaches t u) : Reaches s u := by
  obtain ⟨ls, hl⟩ := h1
  obtain ⟨ms, hm⟩ := h2
  exact ⟨ls ++ ms, by rw [exec_append, hl]; exact hm⟩

theorem reaches_preserves (P : State → Prop) (hP : ∀ s l s', P s → step s l = some s' → P s')
    {s t : State} (h : Reaches s t) (hs : P s) : P t := by
  obtain ⟨ls, hl⟩ := h
  exact exec_preserves P hP ls s t hs hl

theorem reachable_mainInv {cfg : Config} {s : State} (h : Reachable cfg s) : MainInv s :=
  reaches_preserves MainInv (fun s l s' => mainInv_step s s' l) h (mainInv_init cfg)

theorem reachable_taskInv {cfg : Config} {s : State} (h : Reachable cfg s) : TaskInv s :=
  reaches_preserves TaskInv (fun s l s' => taskInv_step s s' l) h (taskInv_init cfg)

theorem stateAfter_reachable (cfg : Config) (ls : List Label) (h : (exec (init cfg) ls).isSome) :
    Reachable cfg (stateAfter cfg ls) := by
  refine ⟨ls, ?_⟩
  unfold stateAfter
  cases he : exec (init cfg) ls with
  | none => simp [he] at h
  | some t => rfl

theorem closeAttempts_eq (tr : List Event) :
    closeAttempts tr = closeCount tr + closeFailed tr := by
  induction tr with
  | nil => rfl
  | cons e tr ih =>
    cases e with
    | start p arg started =>
      cases p <;> cases started <;> simp [closeAttempts, closeCount, closeFailed, ih] <;> omega
    | _ => simpa [closeAttempts, closeCount, closeFailed] using ih

theorem tdBegin_mem_teardownLog (d : Deferred) (tr : List Event) :
    Event.tdBegin d ∈ tr → Event.tdBegin d ∈ teardownLog tr := by
  induction tr with
  | nil => intro h; cases h
  | cons e tr ih =>
    intro h
    rcases List.mem_cons.1 h with h1 | h1
    · subst h1; simp [teardownLog]
    · have := ih h1
      cases e <;> simp [teardownLog, this]

theorem failed_step (s : State) (l : Label) (s' : State)
    (h : TaskInv s ∧ s.syncer = .failed) (hs : step s l = some s') :
    TaskInv s' ∧ s'.syncer = .failed := by
  refine ⟨taskInv_step s s' l h.1 hs, ?_⟩
  obtain ⟨hk, h⟩ := h
  have hearly := hk.early
  rcases s with ⟨cfg, pc, pn, defers, la, tg, ip, isy, rd, sy, ec, tk, tr⟩
  simp only at h hearly
  subst h
  unfold step at hs
  split at hs
  · exact absurd hs (by simp)
  · cases l with
    | syncer r => simp [stepSyncer] at hs
    | handoff => cases rd <;> simp [stepHandoff] at hs
    | reader r =>
      cases rd <;> simp only [stepReader] at hs
      all_goals (repeat' split at hs)
      all_goals
        first
        | (simp only [Option.some.injEq] at hs; subst hs; rfl)
        | (exact absurd hs (by simp))
    | main r =>
      have hne : pc ≠ .goSyncer := by
        intro hp
        subst hp
        simp [MainPc.rank] at hearly
      cases pc <;> simp only [stepMain] at hs
      all_goals (repeat' split at hs)
      all_goals
        first
        | (exact absurd rfl hne)
        | (simp only [Option.some.injEq] at hs; subst hs; rfl)
        | (rename_i heq; exact MainPc.noConfusion heq)
        | (cases hs)

theorem closeAttempts_eq_zero_of_before (s : State) (hm : MainInv s) (hb : BeforeAcquire s) :
    closeAttempts s.trace = 0 ∧ s.exited = false := by
  have hc := hm.close
  have ho := hm.opened
  have hle : (registered s.trace).count .closeMaster ≤ 1 := by
    split_ifs at ho <;> omega
  rcases s with ⟨cfg, pc, pn, defers, la, tg, ip, isy, rd, sy, ec, tk, tr⟩
  simp only [BeforeAcquire] at hb
  simp only [pendingClose] at hc hle ⊢
  rcases hb with ⟨h1, h2⟩ | ⟨h1, h2⟩ | ⟨h1, h2⟩
  · have hst := hm.startup (by simp only; omega)
    simp only at hst
    obtain ⟨-, -, hdef, hreg, -⟩ := hst
    rw [hreg, hdef] at hc
    constructor
    · have : pc ≠ .tdStartClose := by
        intro h; subst h; simp [MainPc.rank] at h2
      simp [this] at hc
      exact hc
    · cases pc <;> simp [MainPc.rank] at h1 h2 <;> rfl
  · subst h1 h2
    simp at hc
    exact ⟨by omega, rfl⟩
  · subst h1 h2
    simp at hc
    exact ⟨by omega, rfl⟩

theorem teardownLog_of_before (s : State) (hm : MainInv s) (hb : BeforeAcquire s) :
    teardownLog s.trace <+: [.tdBegin .acquireTicket] := by
  have hord := hm.order
  have hstage := hm.stage
  rcases s with ⟨cfg, pc, pn, defers, la, tg, ip, isy, rd, sy, ec, tk, tr⟩
  simp only [BeforeAcquire] at hb
  simp only at hord hstage ⊢
  rcases hb with ⟨h1, h2⟩ | ⟨h1, h2⟩ | ⟨h1, h2⟩
  · have hst := hm.startup (by simp only; omega)
    rw [hst.2.1]
    exact List.nil_prefix
  · subst h1 h2
    have hlen := congrArg List.length hord
    rcases hstage with h | h | h | h <;> rw [h] at hlen <;>
      simp [pending, unwinding] at hlen
    rw [hlen]
    exact List.nil_prefix
  · subst h1 h2
    have hlen := congrArg List.length hord
    rcases hstage with h | h | h | h <;> rw [h] at hlen hord <;>
      simp [pending, unwinding] at hlen
    have hsame : teardownLog tr ++ pending .tdAcquire [.stopWatcher, .closeMaster] =
        [.tdBegin .acquireTicket] ++ pending .tdAcquire [.stopWatcher, .closeMaster] := by
      rw [hord]
      rfl
    have hcancel : teardownLog tr = [.tdBegin .acquireTicket] := List.append_cancel_right hsame
    rw [hcancel]

/-- After a failed incremental rsync, in every later state: the syncer is gone,
the channel is empty, line 241 has not received, and the main task is before or
inside the deferred call of line 239. -/
theorem after_failed_sync (cfg : Config) (s t : State)
    (hs : Reachable cfg s) (hf : s.syncer = .failed) (ht : Reaches s t) :
    MainInv t ∧ t.syncer = .failed ∧ t.rsyncTkt = some 0 ∧
    Event.tdEnd .acquireTicket ∉ t.trace ∧ BeforeAcquire t := by
  have hft : t.syncer = .failed :=
    (reaches_preserves (fun u => TaskInv u ∧ u.syncer = .failed) failed_step ht
      ⟨reachable_taskInv hs, hf⟩).2
  have hr : Reachable cfg t := Reaches.trans hs ht
  have hm := reachable_mainInv hr
  have hk := reachable_taskInv hr
  obtain ⟨k, hkk⟩ := hk.made (by rw [hft]; simp)
  have hpc : t.pc ≠ .fillTicket := by
    intro h
    have := hk.early (by rw [h]; decide)
    rw [hft] at this
    cases this
  have hcons := hk.conserve k hkk hpc
  simp only [holders, lostTokens, hft, SyncerPc.holds] at hcons
  have hnot : Event.tdEnd .acquireTicket ∉ t.trace := by
    intro hmem
    simp [hmem] at hcons
  have hk0 : k = 0 := by
    simp [hnot] at hcons
    exact hcons
  subst hk0
  exact ⟨hm, hft, hkk, hnot, hm.before (by rw [hft]; simp) hnot⟩

theorem not_mem_of_count_append_le (c : Char) (u h : Str) (hc : (u ++ c :: h).count c ≤ 1) :
    c ∉ u ∧ c ∉ h := by
  simp only [List.count_append, List.count_cons_self] at hc
  exact ⟨List.count_eq_zero.1 (by omega), List.count_eq_zero.1 (by omega)⟩

/-- C1: for every target with exactly one colon and at most one `@` before it,
`parseTarget` succeeds and agrees with the reference definition: the path is
the text after the colon (`"."` if that is empty); with an `@` the user is the
text before it and the host the text after it, whatever the user lookup
returns; without, the user is the local login name and the host all of the
left part; and the user-host string is user, `@`, host. -/
theorem parseTarget_eq_reference (name target : Str)
    (hcolon : target.count ':' = 1) (hat : (before ':' target).count '@' ≤ 1) :
    target = before ':' target ++ ':' :: after ':' target ∧
    parseTarget (some name) target =
      .ok (parseTargetRef name (before ':' target) (after ':' target)) ∧
    (∀ u h, before ':' target = u ++ '@' :: h → ∀ cu, parseTarget cu target =
      .ok ⟨u ++ '@' :: h, u, h,
        if after ':' target = [] then ['.'] else after ':' target⟩) ∧
    ('@' ∉ before ':' target → parseTarget (some name) target =
      .ok ⟨name ++ '@' :: before ':' target, name, before ':' target,
        if after ':' target = [] then ['.'] else after ':' target⟩) ∧
    (∀ t, parseTarget (some name) target = .ok t →
      t.remoteUserHost = t.remoteUser ++ ['@'] ++ t.remoteHost) := by
  have hmem : ':' ∈ target := List.count_pos_iff.1 (by omega)
  obtain ⟨hdec, hl⟩ := split_at_first ':' target hmem
  generalize before ':' target = l at hdec hl hat ⊢
  generalize after ':' target = r at hdec ⊢
  subst hdec
  have hr : ':' ∉ r := by
    simp only [List.count_append, List.count_cons_self] at hcolon
    exact List.count_eq_zero.1 (by omega)
  have hone : ∀ u h, l = u ++ '@' :: h → ∀ cu, parseTarget cu (l ++ ':' :: r) =
      .ok ⟨u ++ '@' :: h, u, h, if r = [] then ['.'] else r⟩ := by
    intro u h hl' cu
    subst hl'
    obtain ⟨hu, hh⟩ := not_mem_of_count_append_le '@' u h hat
    have hcu : ':' ∉ u := fun m => hl (by simp [m])
    have hch : ':' ∉ h := fun m => hl (by simp [m])
    exact parseTarget_oneAt cu u h r hcu hch hr hu hh
  have hnone : '@' ∉ l → parseTarget (some name) (l ++ ':' :: r) =
      .ok ⟨name ++ '@' :: l, name, l, if r = [] then ['.'] else r⟩ := by
    intro hno
    exact parseTarget_noAt (some name) l r hl hr hno
  have href : parseTarget (some name) (l ++ ':' :: r) = .ok (parseTargetRef name l r) := by
    by_cases hm : '@' ∈ l
    · obtain ⟨hd, _⟩ := split_at_first '@' l hm
      rw [hone _ _ hd (some name)]
      simp only [parseTargetRef, hm, if_true]
      simp
    · rw [hnone hm]
      simp only [parseTargetRef, hm, if_false]
      simp
  refine ⟨rfl, href, hone, hnone, ?_⟩
  intro t ht
  rw [href] at ht
  cases ht
  rfl

/-- C1, witness: `"u@h:/p"` gives user `u`, host `h`, path `/p` (with no local
user at hand), and `"host:"` with local user `bob` gives user `bob`, host
`host`, path `"."`. -/
theorem parseTarget_eq_reference_witness :
    parseTarget none "u@h:/p".toList
      = .ok ⟨"u@h".toList, "u".toList, "h".toList, "/p".toList⟩ ∧
    parseTarget (some "bob".toList) "host:".toList
      = .ok ⟨"bob@host".toList, "bob".toList, "host".toList, ".".toList⟩ :=
  ⟨(parseTarget_eq_reference "bob".toList "u@h:/p".toList (by decide) (by decide)).2.2.1
      "u".toList "h".toList (by decide) none,
   (parseTarget_eq_reference "bob".toList "host:".toList (by decide) (by decide)).2.2.2.1
      (by decide)⟩

theorem parseTarget_malformed (cu : Option Str) (remoteArg : Str)
    (hbad : remoteArg.count ':' ≠ 1 ∨
      (remoteArg.count ':' = 1 ∧ 2 ≤ (before ':' remoteArg).count '@')) :
    ∃ e, parseTarget cu remoteArg = .error e ∧ e.isParseError = true := by
  rcases hbad with h | ⟨h1, h2⟩
  · exact ⟨.remoteFormat, parseTarget_colons cu remoteArg h, rfl⟩
  · have hmem : ':' ∈ remoteArg := List.count_pos_iff.1 (by omega)
    obtain ⟨hdec, hl⟩ := split_at_first ':' remoteArg hmem
    generalize before ':' remoteArg = l at hdec hl h2
    generalize after ':' remoteArg = r at hdec
    subst hdec
    have hr : ':' ∉ r := by
      simp only [List.count_append, List.count_cons_self] at h1
      exact List.count_eq_zero.1 (by omega)
    exact ⟨.badUserHost, parseTarget_manyAt cu l r hl hr h2, rfl⟩

theorem rejected_step (cfg : Config) (localArg remoteArg : Str)
    (hargs : cfg.args = [localArg, remoteArg])
    (hbad : ∀ cu, ∃ e, parseTarget cu remoteArg = .error e ∧ e.isParseError = true)
    (s : State) (l : Label) (s' : State) (h : Rejected cfg s) (hs : step s l = some s') :
    Rejected cfg s' := by
  obtain ⟨hc, ht, hd, hr, hy, hpc⟩ := h
  rcases s with ⟨cfg', pc, pn, defers, la, tg, ip, isy, rd, sy, ec, tk, tr⟩
  simp only at hc ht hd hr hy hpc
  subst hc ht hd hr hy
  cases l with
  | reader r => simp [step, stepReader] at hs
  | syncer r => simp [step, stepSyncer] at hs
  | handoff => simp [step, stepHandoff] at hs
  | main r =>
    rcases hpc with ⟨h1, h2⟩ | ⟨h1, h2⟩ | ⟨h1, h2⟩ | ⟨e, h1⟩
    · subst h1 h2
      simp only [step, State.exited, stepMain, Bool.false_eq_true, if_false] at hs
      split at hs <;> simp only [Option.some.injEq] at hs <;> subst hs <;>
        simp [Rejected, State.panicWith]
    · subst h1 h2
      obtain ⟨e, he, _⟩ := hbad (if r.err = true then none else some r.out)
      simp only [step, State.exited, stepMain, hargs, he] at hs
      simp at hs
      subst hs
      simp [Rejected, State.panicWith]
    · subst h1
      simp only [step, State.exited, stepMain] at hs
      simp at hs
      subst hs
      cases pn with
      | none => exact absurd rfl h2
      | some e => simp [Rejected]
    · subst h1
      simp [step, State.exited] at hs

/-- C2: a target whose number of colons is not one, or with one colon and two or
more `@` before it, makes parsing fail with a parse error; in every state of
such a run nothing has been started (the trace is empty and neither goroutine
runs) and the program never exits normally; and once the log file is open the
program has aborted with the parse error after three steps. -/
theorem malformed_target_rejected (cfg : Config) (localArg remoteArg : Str)
    (hargs : cfg.args = [localArg, remoteArg])
    (hbad : remoteArg.count ':' ≠ 1 ∨
      (remoteArg.count ':' = 1 ∧ 2 ≤ (before ':' remoteArg).count '@')) :
    (∀ cu, ∃ e, parseTarget cu remoteArg = .error e ∧ e.isParseError = true) ∧
    (∀ s, Reachable cfg s → s.trace = [] ∧ s.reader = .notStarted ∧ s.syncer = .notStarted ∧
      s.pc ≠ .exited none) ∧
    (∀ r1 r2 r3, cfg.logFile = [] ∨ r1.err = false → ∃ e s, e.isParseError = true ∧
      exec (init cfg) [.main r1, .main r2, .main r3] = some s ∧
      s.pc = .exited (some e) ∧ s.trace = []) := by
  have hp := fun cu => parseTarget_malformed cu remoteArg hbad
  refine ⟨hp, ?_, ?_⟩
  · intro s hs
    have hr : Rejected cfg s :=
      reaches_preserves (Rejected cfg) (rejected_step cfg localArg remoteArg hargs hp) hs
        (by simp [Rejected, init])
    obtain ⟨_, ht, _, hr, hy, hpc⟩ := hr
    refine ⟨ht, hr, hy, ?_⟩
    rcases hpc with ⟨h1, _⟩ | ⟨h1, _⟩ | ⟨h1, _⟩ | ⟨e, h1⟩ <;> simp [h1]
  · intro r1 r2 r3 hlog
    obtain ⟨e, he, hpe⟩ := hp (if r2.err = true then none else some r2.out)
    have hno : ¬ (cfg.logFile ≠ [] ∧ r1.err = true) := by
      rintro ⟨h1, h2⟩
      rcases hlog with h | h
      · exact h1 h
      · simp [h] at h2
    refine ⟨e, { init cfg with pc := .exited (some e), panic := some e }, hpe, ?_, rfl, rfl⟩
    simp [exec, step, State.exited, stepMain, init, hno, hargs, he, State.panicWith]

/-- C2, witness: `"u@h"` has no colon and `"a@b@h:/p"` has two `@` before its
colon. -/
theorem malformed_target_rejected_witness :
    (∀ cu, ∃ e, parseTarget cu "u@h".toList = .error e ∧ e.isParseError = true) ∧
    (∀ cu, ∃ e, parseTarget cu "a@b@h:/p".toList = .error e ∧ e.isParseError = true) :=
  ⟨(malformed_target_rejected ⟨["./src".toList, "u@h".toList], []⟩ "./src".toList "u@h".toList
      rfl (Or.inl (by decide))).1,
   (malformed_target_rejected ⟨["./src".toList, "a@b@h:/p".toList], []⟩ "./src".toList
      "a@b@h:/p".toList rfl (Or.inr ⟨by decide, by decide⟩)).1⟩

/-- C3 (the code departs from the claim): the target `":/p"`, whose left half is
empty, is parsed without error when the local user is `bob` (user `bob`, empty
host, user-host string `"bob@"`), and the run goes on to start the tunnel
command for `"bob@"`; the test of line 66 comes after line 53 has made the
user-host string non-empty. -/
theorem empty_left_half_accepted :
    parseTarget (some "bob".toList) ":/p".toList
      = .ok ⟨"bob@".toList, "bob".toList, [], "/p".toList⟩ ∧
    (exec (init emptyLeftCfg) (List.replicate 4 mainOk)).isSome = true ∧
    (stateAfter emptyLeftCfg (List.replicate 4 mainOk)).pc = .waitTunnel ∧
    (stateAfter emptyLeftCfg (List.replicate 4 mainOk)).trace
      = [.start .tunnel "bob@".toList true] := by
  decide

/-- C4 (the code departs from the claim): in the run `failedMirrorRun` the
initial rsync is waited for without error and has exited with a non-zero
status; the program does not panic: it starts the watcher, the reader, the
syncer and the shell. -/
theorem initial_mirror_failure_not_fatal :
    (exec (init demoCfg) failedMirrorRun).isSome = true ∧
    Event.wait .initialSync false false ∈ (stateAfter demoCfg failedMirrorRun).trace ∧
    (stateAfter demoCfg failedMirrorRun).panic = none ∧
    (stateAfter demoCfg failedMirrorRun).pc = .waitShell ∧
    (stateAfter demoCfg failedMirrorRun).reader = .scan ∧
    (stateAfter demoCfg failedMirrorRun).syncer = .recv ∧
    Event.start .fswatch "./src".toList true ∈ (stateAfter demoCfg failedMirrorRun).trace ∧
    Event.start .shell "bob@vm1".toList true ∈ (stateAfter demoCfg failedMirrorRun).trace := by
  decide

/-- C5, counterexample: in the run `blankIpRun` the instance description
succeeds and prints only white space; the run does not abort, the host address
is empty and the initial rsync is started with destination `"bob@:."`. -/
theorem blank_address_not_rejected :
    (exec (init demoCfg) blankIpRun).isSome = true ∧
    (stateAfter demoCfg blankIpRun).remoteHostIP = [] ∧
    (stateAfter demoCfg blankIpRun).panic = none ∧
    (stateAfter demoCfg blankIpRun).pc = .waitInitialSync ∧
    mirrorStarts (stateAfter demoCfg blankIpRun).trace = ["bob@:.".toList] := by
  decide

set_option maxHeartbeats 4000000 in
theorem aborted_step (s : State) (l : Label) (s' : State) (h : Aborted s)
    (hs : step s l = some s') : Aborted s' := by
  obtain ⟨h1, h2, h3, h4⟩ := h
  rcases s with ⟨cfg, pc, pn, defers, la, tg, ip, isy, rd, sy, ec, tk, tr⟩
  simp only at h1 h2 h3 h4
  subst h2
  unfold step at hs
  split at hs
  · exact absurd hs (by simp)
  · cases l with
    | syncer r => simp [stepSyncer] at hs
    | handoff => cases rd <;> simp [stepHandoff] at hs
    | reader r =>
      cases rd <;> simp only [stepReader] at hs
      all_goals (repeat' split at hs)
      all_goals
        first
        | (simp only [Option.some.injEq] at hs; subst hs; exact ⟨h1, rfl, h3, h4⟩)
        | (exact absurd hs (by simp))
    | main r =>
      cases pc <;> simp only [MainPc.rank] at h3 <;> try omega
      all_goals rcases defers with _ | ⟨_ | _ | _, ds⟩
      all_goals simp only [stepMain] at hs
      all_goals (repeat' split at hs)
      all_goals
        first
        | (simp only [Option.some.injEq] at hs; subst hs)
        | (exact absurd hs (by simp))
      all_goals simp_all [Aborted, mirrorStarts, MainPc.rank, Deferred.entry]

/-- C5, amended: when the instance description returns an error the program
panics; from then on no rsync is ever started and the program cannot exit
normally, and after the deferred close-master call (four steps of the main
task) it has exited with a panic. -/
theorem describe_failure_aborts (cfg : Config) (s : State) (r : Reply)
    (hs : Reachable cfg s) (hpc : s.pc = .describe) (herr : r.err = true) :
    ∃ s', step s (.main r) = some s' ∧ s'.panic = some .describe ∧
      (∀ t, Reaches s' t → mirrorStarts t.trace = [] ∧ t.pc ≠ .exited none) ∧
      (∀ r1 r2 r3 r4, ∃ t p,
        exec s' [.main r1, .main r2, .main r3, .main r4] = some t ∧ t.pc = .exited (some p)) := by
  have hm := reachable_mainInv hs
  have hst := hm.startup (by rw [hpc]; decide)
  rcases s with ⟨cfg', pc, pn, defers, la, tg, ip, isy, rd, sy, ec, tk, tr⟩
  simp only at hpc
  subst hpc
  simp only [MainPc.rank, MainPc.regs] at hst
  obtain ⟨-, -, hdef, -, -, -, hsy, hmir⟩ := hst
  simp at hdef hsy hmir
  subst hdef hsy
  refine ⟨_, by simp [step, State.exited, stepMain, herr]; rfl, rfl, ?_, ?_⟩
  · intro t ht
    have hab : Aborted t := reaches_preserves Aborted aborted_step ht
      (by simp [Aborted, State.panicWith, mirrorStarts, hmir, MainPc.rank])
    have hr : Reachable cfg t :=
      Reaches.trans hs (Reaches.trans ⟨[.main r], by simp [exec, step, State.exited, stepMain, herr]⟩ ht)
    refine ⟨hab.1, ?_⟩
    intro hx
    have := ((reachable_mainInv hr).done none hx).2
    exact hab.2.2.2 this.symm
  · intro r1 r2 r3 r4
    cases h3 : r2.err <;>
      simp [exec, step, State.exited, stepMain, State.panicWith, Deferred.entry, h3]

/-- C5, witness: in the sample run the description is reached after six steps;
let it fail there. -/
theorem describe_failure_aborts_witness :
    ∃ s', step (stateAfter demoCfg toDescribe) (.main ⟨true, false, []⟩) = some s' ∧
      s'.panic = some .describe ∧
      (∀ t, Reaches s' t → mirrorStarts t.trace = [] ∧ t.pc ≠ .exited none) ∧
      (∀ r1 r2 r3 r4, ∃ t p,
        exec s' [.main r1, .main r2, .main r3, .main r4] = some t ∧ t.pc = .exited (some p)) :=
  describe_failure_aborts demoCfg (stateAfter demoCfg toDescribe) ⟨true, false, []⟩
    (stateAfter_reachable demoCfg toDescribe (by decide)) (by decide) rfl

/-- C6 (the code departs from the claim): once an incremental rsync has failed,
the syncer has returned with the token of `rsyncTkt`; in every state reachable
from there the syncer is still gone, the channel is empty, the deferred receive
of line 241 has not completed, the close-master command has not been issued and
the program has not exited; line 103 has not even been reached. -/
theorem failed_syncer_blocks_teardown (cfg : Config) (s t : State)
    (hs : Reachable cfg s) (hf : s.syncer = .failed) (ht : Reaches s t) :
    t.syncer = .failed ∧ t.rsyncTkt = some 0 ∧ Event.tdEnd .acquireTicket ∉ t.trace ∧
    closeCount t.trace = 0 ∧ t.exited = false ∧ closeAttempts t.trace = 0 := by
  obtain ⟨hm, hft, hkk, hnot, hb⟩ := after_failed_sync cfg s t hs hf ht
  obtain ⟨h1, h2⟩ := closeAttempts_eq_zero_of_before t hm hb
  have h3 := closeAttempts_eq t.trace
  exact ⟨hft, hkk, hnot, by omega, h2, h1⟩

/-- C6, the failing run: after `failedSyncRun` (one incremental rsync fails, then
the shell exits) the main task enters the deferred receive and stays there. -/
theorem failed_syncer_blocks_teardown_witness :
    (stateAfter demoCfg failedSyncRun).syncer = .failed ∧
    (stateAfter demoCfg (failedSyncRun ++ [mainOk])).pc = .tdAcquire ∧
    (∀ l, step (stateAfter demoCfg (failedSyncRun ++ [mainOk])) (.main l) = none) ∧
    ((stateAfter demoCfg (failedSyncRun ++ [mainOk])).syncer = .failed ∧
      (stateAfter demoCfg (failedSyncRun ++ [mainOk])).rsyncTkt = some 0 ∧
      Event.tdEnd .acquireTicket ∉ (stateAfter demoCfg (failedSyncRun ++ [mainOk])).trace ∧
      closeCount (stateAfter demoCfg (failedSyncRun ++ [mainOk])).trace = 0 ∧
      (stateAfter demoCfg (failedSyncRun ++ [mainOk])).exited = false ∧
      closeAttempts (stateAfter demoCfg (failedSyncRun ++ [mainOk])).trace = 0) :=
  ⟨by decide, by decide, fun _ => rfl,
   failed_syncer_blocks_teardown demoCfg (stateAfter demoCfg failedSyncRun)
    (stateAfter demoCfg (failedSyncRun ++ [mainOk]))
    (stateAfter_reachable demoCfg failedSyncRun (by decide)) (by decide) ⟨[mainOk], by decide⟩⟩

theorem inFlight_le_one (s : State) (hk : TaskInv s) : inFlight s ≤ 1 := by
  have hi := hk.initial
  unfold inFlight
  cases hs : s.initialSync with
  | false => simp only [Bool.false_eq_true, if_false]; split_ifs <;> omega
  | true =>
    have := (hi hs).1
    simp [this]

/-- C7: in every reachable state at most one rsync run is in flight, the
initial run counted together with the syncer's: while the initial run may be
alive the syncer does not exist, and the syncer runs one rsync at a time. -/
theorem at_most_one_mirror (cfg : Config) (s : State) (h : Reachable cfg s) :
    inFlight s ≤ 1 ∧ (s.initialSync = true → s.syncer = .notStarted) := by
  have hk := reachable_taskInv h
  exact ⟨inFlight_le_one s hk, fun hs => (hk.initial hs).1⟩

/-- C7, witness: the state in which the syncer's rsync is running. -/
theorem at_most_one_mirror_witness :
    inFlight (stateAfter demoCfg (toShell ++ syncStarted)) = 1 ∧
    inFlight (stateAfter demoCfg (toShell ++ syncStarted)) ≤ 1 :=
  ⟨by decide, (at_most_one_mirror demoCfg (stateAfter demoCfg (toShell ++ syncStarted))
    (stateAfter_reachable demoCfg (toShell ++ syncStarted) (by decide))).1⟩

/-- C9, counterexample: in the run `closeFailRun` the open-master command was
waited for and had exited with success, the program has exited, and no
close-master command was issued: the one execution of line 103 returned an
error. -/
theorem close_master_not_issued_when_start_fails :
    (exec (init demoCfg) closeFailRun).isSome = true ∧
    (stateAfter demoCfg closeFailRun).exited = true ∧
    TunnelOpened (stateAfter demoCfg closeFailRun).trace ∧
    closeCount (stateAfter demoCfg closeFailRun).trace = 0 ∧
    closeAttempts (stateAfter demoCfg closeFailRun).trace = 1 := by
  decide

/-- C9, amended: when the program has exited, line 103 has been executed
exactly once if the open-master command was waited for and had exited with
success, and not at all otherwise; that one execution either issued the
close-master command or returned an error, so the command has been issued at
most once, and not at all when the open-master command did not succeed. -/
theorem close_master_attempted_once_iff_opened (cfg : Config) (s : State)
    (h : Reachable cfg s) (hx : s.exited = true) :
    closeAttempts s.trace = (if TunnelOpened s.trace then 1 else 0) ∧
    closeCount s.trace + closeFailed s.trace = (if TunnelOpened s.trace then 1 else 0) ∧
    closeCount s.trace ≤ 1 ∧ (¬ TunnelOpened s.trace → closeCount s.trace = 0) := by
  have hm := reachable_mainInv h
  have hc := hm.close
  have ho := hm.opened
  have hd := hm.done
  have heq := closeAttempts_eq s.trace
  have hatt : closeAttempts s.trace = (if TunnelOpened s.trace then 1 else 0) := by
    rcases s with ⟨cfg', pc, pn, defers, la, tg, ip, isy, rd, sy, ec, tk, tr⟩
    cases pc <;> simp [State.exited] at hx
    rename_i p
    obtain ⟨hdef, -⟩ := hd p rfl
    simp only at hdef hc ho ⊢
    subst hdef
    simp [pendingClose] at hc ho
    rw [hc, ho]
  refine ⟨hatt, by rw [← hatt, heq], ?_, ?_⟩
  · split_ifs at hatt <;> omega
  · intro hno
    rw [if_neg hno] at hatt
    omega

/-- C9, witness: the session without file changes opens the tunnel and issues
the close-master command once; a run whose tunnel command exits non-zero never
reaches line 103. -/
theorem close_master_attempted_once_iff_opened_witness :
    closeCount (stateAfter demoCfg cleanRun).trace = 1 ∧
    closeAttempts (stateAfter demoCfg (List.replicate 4 mainOk ++ [mainNonZero, mainOk])).trace
      = 0 ∧
    (stateAfter demoCfg (List.replicate 4 mainOk ++ [mainNonZero, mainOk])).pc
      = .exited (some .tunnelWait) ∧
    (closeAttempts (stateAfter demoCfg cleanRun).trace
        = (if TunnelOpened (stateAfter demoCfg cleanRun).trace then 1 else 0) ∧
      closeCount (stateAfter demoCfg cleanRun).trace
          + closeFailed (stateAfter demoCfg cleanRun).trace
        = (if TunnelOpened (stateAfter demoCfg cleanRun).trace then 1 else 0) ∧
      closeCount (stateAfter demoCfg cleanRun).trace ≤ 1 ∧
      (¬ TunnelOpened (stateAfter demoCfg cleanRun).trace →
        closeCount (stateAfter demoCfg cleanRun).trace = 0)) :=
  ⟨by decide, by decide, by decide,
   close_master_attempted_once_iff_opened demoCfg (stateAfter demoCfg cleanRun)
    (stateAfter_reachable demoCfg cleanRun (by decide)) (by decide)⟩

/-- C10, counterexample: in the session without file changes, when the deferred
receive of line 241 has taken the token the program is still running (the
watcher is not yet stopped), the channel is empty and no rsync is running, so
tokens plus runs in flight is zero. -/
theorem ticket_sum_zero_after_teardown :
    (exec (init demoCfg) ticketTakenRun).isSome = true ∧
    (stateAfter demoCfg ticketTakenRun).exited = false ∧
    (stateAfter demoCfg ticketTakenRun).pc = .unwind ∧
    (stateAfter demoCfg ticketTakenRun).defers = [.stopWatcher, .closeMaster] ∧
    (stateAfter demoCfg ticketTakenRun).rsyncTkt = some 0 ∧
    tokens (stateAfter demoCfg ticketTakenRun) + inFlight (stateAfter demoCfg ticketTakenRun)
      = 0 := by
  decide

/-- C10, amended: in every reachable state the tokens buffered in `rsyncTkt`
plus the rsync runs in flight are at most one; once the channel exists the
tokens plus the tasks holding the token are at most one; and from the first
send on (line 210), while the program runs and as long as no incremental rsync
has failed, the tokens in the channel plus the tasks holding the token (the
syncer between its receive and its send, the main task after the receive of
line 241) are exactly one. -/
theorem ticket_at_most_one (cfg : Config) (s : State) (h : Reachable cfg s) :
    tokens s + inFlight s ≤ 1 ∧
    (∀ k, s.rsyncTkt = some k → tokens s + holders s ≤ 1) ∧
    (∀ k, s.rsyncTkt = some k → s.pc ≠ .fillTicket → s.exited = false →
      s.syncer ≠ .failed → tokens s + holders s = 1) := by
  have hk := reachable_taskInv h
  have hfl := inFlight_le_one s hk
  have hrun : inFlight s ≤ (if s.initialSync = true then 1 else 0) + holders s := by
    unfold inFlight holders
    by_cases hr : s.syncer = .running
    · simp [hr, SyncerPc.holds]
    · simp [hr]
  cases hkk : s.rsyncTkt with
  | none =>
    refine ⟨by simp only [tokens, hkk, Option.getD_none]; omega, ?_, ?_⟩
    · intro k hk'
      cases hk'
    · intro k hk'
      cases hk'
  | some k =>
    have hi : s.initialSync = false := by
      cases hs : s.initialSync with
      | false => rfl
      | true =>
        have := (hk.initial hs).2
        rw [hkk] at this
        cases this
    simp only [hi, Bool.false_eq_true, if_false, Nat.zero_add] at hrun
    by_cases hpc : s.pc = .fillTicket
    · have h0 := hk.filling hpc
      have hsy := hk.early (by rw [hpc]; decide)
      have hfresh := hk.fresh (by rw [hpc]; decide)
      rw [hkk] at h0
      cases h0
      refine ⟨by simp [tokens, hkk, inFlight, hi, hsy], ?_, ?_⟩
      · intro _ _
        simp [tokens, hkk, holders, hsy, SyncerPc.holds, hfresh]
      · intro _ _ hne
        exact absurd hpc hne
    · have hcons := hk.conserve k hkk hpc
      simp only [tokens, hkk, Option.getD_some]
      refine ⟨by omega, fun _ _ => by omega, ?_⟩
      intro k' hk' _ _ hnf
      simp only [lostTokens, hnf, if_false] at hcons
      omega

/-- C10, witness: while the syncer's rsync is running the channel is empty, one
run is in flight and the syncer holds the token. -/
theorem ticket_at_most_one_witness :
    tokens (stateAfter demoCfg (toShell ++ syncStarted)) = 0 ∧
    inFlight (stateAfter demoCfg (toShell ++ syncStarted)) = 1 ∧
    holders (stateAfter demoCfg (toShell ++ syncStarted)) = 1 ∧
    tokens (stateAfter demoCfg (toShell ++ syncStarted))
      + holders (stateAfter demoCfg (toShell ++ syncStarted)) = 1 :=
  ⟨by decide, by decide, by decide,
   (ticket_at_most_one demoCfg (stateAfter demoCfg (toShell ++ syncStarted))
    (stateAfter_reachable demoCfg (toShell ++ syncStarted) (by decide))).2.2 0 (by decide)
      (by decide) (by decide) (by decide)⟩

/-- C8 (the code departs from the claim, by the defect of C6): once an
incremental rsync has failed, teardown never gets past the beginning of its
first step.  In every state reachable from there the deferred calls have done
nothing (the main task is still in the straight-line part of `main`) or only
the call of line 239 has begun; the calls that stop the watcher and close the
control channel never begin; at line 241 the main task has no step; and the
program never exits, by return or by panic. -/
theorem teardown_stops_after_failed_sync (cfg : Config) (s t : State)
    (hs : Reachable cfg s) (hf : s.syncer = .failed) (ht : Reaches s t) :
    teardownLog t.trace <+: [.tdBegin .acquireTicket] ∧
    Event.tdBegin .stopWatcher ∉ t.trace ∧
    Event.tdBegin .closeMaster ∉ t.trace ∧
    (t.pc = .tdAcquire → ∀ r, step t (.main r) = none) ∧
    t.exited = false := by
  obtain ⟨hm, -, hkk, -, hb⟩ := after_failed_sync cfg s t hs hf ht
  have hpre := teardownLog_of_before t hm hb
  have hnot : ∀ d, d ≠ .acquireTicket → Event.tdBegin d ∉ t.trace := by
    intro d hd hmem
    have h1 := tdBegin_mem_teardownLog d t.trace hmem
    have h2 := List.IsPrefix.subset hpre h1
    simp at h2
    exact hd h2
  refine ⟨hpre, hnot _ (by decide), hnot _ (by decide), ?_,
    (closeAttempts_eq_zero_of_before t hm hb).2⟩
  intro hpc r
  rcases t with ⟨cfg', pc, pn, defers, la, tg, ip, isy, rd, sy, ec, tk, tr⟩
  simp only at hpc hkk
  subst hpc hkk
  rfl

/-- C8, the failing run: in `failedSyncRun` all three deferred calls are
registered, the one incremental rsync fails and the shell exits; `main` returns,
the deferred call of line 239 begins, and that is all the teardown there is. -/
theorem teardown_stops_after_failed_sync_witness :
    registered (stateAfter demoCfg failedSyncRun).trace
      = [.acquireTicket, .stopWatcher, .closeMaster] ∧
    Event.wait .shell false true ∈ (stateAfter demoCfg failedSyncRun).trace ∧
    (stateAfter demoCfg failedSyncRun).pc = .unwind ∧
    (stateAfter demoCfg failedSyncRun).panic = none ∧
    teardownLog (stateAfter demoCfg (failedSyncRun ++ [mainOk])).trace
      = [.tdBegin .acquireTicket] ∧
    (stateAfter demoCfg (failedSyncRun ++ [mainOk])).pc = .tdAcquire ∧
    (teardownLog (stateAfter demoCfg (failedSyncRun ++ [mainOk])).trace
        <+: [.tdBegin .acquireTicket] ∧
      Event.tdBegin .stopWatcher ∉ (stateAfter demoCfg (failedSyncRun ++ [mainOk])).trace ∧
      Event.tdBegin .closeMaster ∉ (stateAfter demoCfg (failedSyncRun ++ [mainOk])).trace ∧
      ((stateAfter demoCfg (failedSyncRun ++ [mainOk])).pc = .tdAcquire →
        ∀ r, step (stateAfter demoCfg (failedSyncRun ++ [mainOk])) (.main r) = none) ∧
      (stateAfter demoCfg (failedSyncRun ++ [mainOk])).exited = false) :=
  ⟨by decide, by decide, by decide, by decide, by decide, by decide,
   teardown_stops_after_failed_sync demoCfg (stateAfter demoCfg failedSyncRun)
    (stateAfter demoCfg (failedSyncRun ++ [mainOk]))
    (stateAfter_reachable demoCfg failedSyncRun (by decide)) (by decide) ⟨[mainOk], by decide⟩⟩

end SyncSpace
